import Mathlib

/-!
Verification development for the granolaa stream-relay server
(`src/server/server.js`).  The relay core is embedded shallowly:

* the length-prefixed frame decoder (`feedChunk`, lines 103-126),
* the presence registry (`registerStream` lines 93-101,
  `unregisterStream` lines 128-139, backed by the `activeStreams` map),
* the per-connection decode buffers (`streamBuffers`, `bufferKey`,
  lines 87-91),
* the viewer fan-out (`broadcastFrame` lines 167-185,
  `broadcastStreamUpdate` lines 187-208, `viewingClients`),
* the producer endpoints `POST /stream/screen` and `POST /stream/webcam`
  (lines 50-84), modelled as the synchronous handler body plus the
  event handlers it installs on the request stream.

Bytes are modelled as `Nat` values (valid bytes are `< 256`; the
concrete inputs used below are valid bytes).  JavaScript `Map` objects
are modelled as association lists in insertion order (`mapSet`
overwrites in place, `mapDelete` removes the entry), matching JS `Map`
semantics for the key types used here.
-/

namespace Granolaa

/-! ### Frame decoder (server.js lines 86-126) -/

/-- The per-connection decoder state stored in `streamBuffers`:
`{ buf: Buffer.alloc(0), need: 4, payloadLen: 0 }`. -/
structure DecodeState where
  buf : List Nat
  need : Nat
  payloadLen : Nat
deriving DecidableEq

/-- The fresh state installed by `registerStream` (line 98). -/
def initState : DecodeState := { buf := [], need := 4, payloadLen := 0 }

/-- The oversize bound `10 * 1024 * 1024` from line 112. -/
def MAX_FRAME_BYTES : Nat := 10 * 1024 * 1024

/-- `state.buf.readUInt32BE(0)` (line 110): big-endian 32-bit read of the
first four buffered bytes.  Only evaluated when at least 4 bytes are
buffered, so the default values are never used. -/
def readUInt32BE (buf : List Nat) : Nat :=
  buf.headD 0 * 16777216 + (buf.drop 1).headD 0 * 65536 +
    (buf.drop 2).headD 0 * 256 + (buf.drop 3).headD 0

/-- The body of `feedChunk`'s `while (true)` loop (lines 108-125),
written with explicit fuel.  Every iteration that loops again first
consumes `state.need ≥ 1` buffered bytes, so `buf.length + 1` fuel (as
supplied by `feedChunk`) always reaches one of the loop's `break`s; the
fuel-0 branch is unreachable from `feedChunk`.

Iteration structure, exactly as in the source: if `need === 4` and at
least 4 bytes are buffered, read the length and drop those 4 bytes;
an oversized length resets the sub-state and breaks; otherwise `need`
and `payloadLen` become the length.  Then, if `need > 0` and enough
bytes are buffered, slice off one frame, emit it, reset `need` to 4 and
continue; otherwise break. -/
def decodeLoopF : Nat → DecodeState → List (List Nat) × DecodeState
  | 0, st => ([], st)
  | fuel + 1, st =>
    if st.need = 4 ∧ 4 ≤ st.buf.length then
      let len := readUInt32BE st.buf
      let buf1 := st.buf.drop 4
      if MAX_FRAME_BYTES < len then
        ([], { buf := buf1, need := 4, payloadLen := 0 })
      else if 0 < len ∧ len ≤ buf1.length then
        let out := decodeLoopF fuel { buf := buf1.drop len, need := 4, payloadLen := 0 }
        (buf1.take len :: out.1, out.2)
      else
        ([], { buf := buf1, need := len, payloadLen := len })
    else if 0 < st.need ∧ st.need ≤ st.buf.length then
      let out := decodeLoopF fuel { buf := st.buf.drop st.need, need := 4, payloadLen := 0 }
      (st.buf.take st.need :: out.1, out.2)
    else
      ([], st)

/-- The pure core of `feedChunk` (lines 103-126) on one decoder state:
append the chunk to the buffer (line 107) and run the parse loop.
Returns the emitted frame payloads in order together with the final
state. -/
def feedChunk (st : DecodeState) (chunk : List Nat) : List (List Nat) × DecodeState :=
  let buf := st.buf ++ chunk
  decodeLoopF (buf.length + 1) { buf := buf, need := st.need, payloadLen := st.payloadLen }

/-- Successive `feedChunk` calls on the same connection, accumulating
the emitted frames in order. -/
def feedChunks : DecodeState → List (List Nat) → List (List Nat) × DecodeState
  | st, [] => ([], st)
  | st, c :: cs =>
    let out := feedChunk st c
    let out2 := feedChunks out.2 cs
    (out.1 ++ out2.1, out2.2)

/-- The 4-byte big-endian encoding of a length, as produced by the
producers' wire format `[4-byte big-endian length][payload]`. -/
def be32 (n : Nat) : List Nat :=
  [n / 16777216 % 256, n / 65536 % 256, n / 256 % 256, n % 256]

/-- One encoded frame: length prefix followed by the payload. -/
def encodeFrame (p : List Nat) : List Nat := be32 p.length ++ p

/-! ### JavaScript `Map` as an association list (insertion order) -/

def mapGet {α : Type} : List (String × α) → String → Option α
  | [], _ => none
  | (k, v) :: rest, key => if k = key then some v else mapGet rest key

def mapSet {α : Type} : List (String × α) → String → α → List (String × α)
  | [], key, v => [(key, v)]
  | (k, w) :: rest, key, v =>
    if k = key then (key, v) :: rest else (k, w) :: mapSet rest key v

def mapDelete {α : Type} : List (String × α) → String → List (String × α)
  | [], _ => []
  | (k, w) :: rest, key =>
    if k = key then rest else (k, w) :: mapDelete rest key

/-! ### Registry, viewers and server state -/

/-- One `activeStreams` entry: `{ screen: true|false, webcam: true|false }`. -/
structure StreamEntry where
  screen : Bool
  webcam : Bool
deriving DecidableEq

inductive StreamKind where
  | screen
  | webcam
deriving DecidableEq

/-- The string name used for a stream kind in the source
(`'screen'` / `'webcam'`). -/
def kindStr : StreamKind → String
  | StreamKind.screen => "screen"
  | StreamKind.webcam => "webcam"

/-- `entry[streamType] = b` (lines 97 and 132). -/
def setKind (e : StreamEntry) (k : StreamKind) (b : Bool) : StreamEntry :=
  match k with
  | StreamKind.screen => { e with screen := b }
  | StreamKind.webcam => { e with webcam := b }

/-- The field of the entry for the other stream kind. -/
def otherKind (e : StreamEntry) : StreamKind → Bool
  | StreamKind.screen => e.webcam
  | StreamKind.webcam => e.screen

/-- `bufferKey` (lines 89-91): the template string
`` `${clientId}:${streamType}` ``. -/
def bufferKey (clientId streamType : String) : String :=
  clientId ++ ":" ++ streamType

/-- `WebSocket.OPEN`. -/
def WS_OPEN : Nat := 1

/-- One member of `viewingClients`.  `vid` is the identity of the
socket; `readyState` and `sendFails` describe how the socket behaves
when a message is pushed at it (`sendFails` = `client.send` throws). -/
structure Viewer where
  vid : Nat
  readyState : Nat
  sendFails : Bool
deriving DecidableEq

/-- One presence-snapshot element `{ clientId, hasScreen, hasWebcam }`
(lines 188-192). -/
structure StreamInfo where
  clientId : String
  hasScreen : Bool
  hasWebcam : Bool
deriving DecidableEq

/-- The two JSON message shapes pushed to viewers.  `JSON.stringify` of
these envelopes is injective on the shapes used, so the structured
value stands for the wire string. -/
inductive Msg where
  | frame (clientId streamType : String) (data : String)
  | streams (streams : List StreamInfo)
deriving DecidableEq

/-! Base64 of the frame payload: `frameData.toString('base64')`
(line 168), standard alphabet with `=` padding. -/

def b64Alphabet : List Char :=
  ("ABCDEFGHIJKLMNOPQRSTUVWXYZabcdefghijklmnopqrstuvwxyz0123456789+/").toList

def b64Char (n : Nat) : Char := b64Alphabet.getD n 'A'

def base64Chars : List Nat → List Char
  | [] => []
  | [a] => [b64Char (a / 4), b64Char (a % 4 * 16), '=', '=']
  | [a, b] => [b64Char (a / 4), b64Char (a % 4 * 16 + b / 16), b64Char (b % 16 * 4), '=']
  | a :: b :: c :: rest =>
    b64Char (a / 4) :: b64Char (a % 4 * 16 + b / 16) ::
      b64Char (b % 16 * 4 + c / 64) :: b64Char (c % 64) :: base64Chars rest

def base64Str (l : List Nat) : String := String.mk (base64Chars l)

/-- `client.send(message)`: throws exactly when the viewer's channel is
broken. -/
def sendToViewer (v : Viewer) (_m : Msg) : Except String Unit :=
  if v.sendFails then Except.error "send failed" else Except.ok ()

/-- The fan-out loop shared by `broadcastFrame` and
`broadcastStreamUpdate` (lines 176-184, 199-207):
`viewingClients.forEach` skips sockets whose `readyState` is not OPEN,
and wraps each `send` in `try { ... } catch { console.error(...) }` so
a throwing send is logged and the loop continues.  Returns the list of
`(vid, message)` deliveries that succeeded, in iteration order. -/
def broadcastLoop : List Viewer → Msg → List (Nat × Msg)
  | [], _ => []
  | v :: rest, m =>
    if v.readyState = WS_OPEN then
      match sendToViewer v m with
      | Except.ok _ => (v.vid, m) :: broadcastLoop rest m
      | Except.error _ => broadcastLoop rest m
    else broadcastLoop rest m

/-- The same fan-out loop in exception semantics: without the
`try`/`catch`, a failing `send` would abort the loop with the error.
The catch clause turns every failure into "log and continue", so this
version is provably always `Except.ok` (see
`broadcast_failure_isolated`). -/
def broadcastLoopE : List Viewer → Msg → Except String (List (Nat × Msg))
  | [], _ => Except.ok []
  | v :: rest, m =>
    if v.readyState = WS_OPEN then
      match sendToViewer v m with
      | Except.ok _ =>
        match broadcastLoopE rest m with
        | Except.ok l => Except.ok ((v.vid, m) :: l)
        | Except.error e => Except.error e
      | Except.error _ => broadcastLoopE rest m
    else broadcastLoopE rest m

/-- The whole module-level mutable state of server.js: `activeStreams`
(line 46), `streamBuffers` (line 87) and `viewingClients` (line 148). -/
structure ServerState where
  activeStreams : List (String × StreamEntry)
  streamBuffers : List (String × DecodeState)
  viewers : List Viewer
deriving DecidableEq

def initServer : ServerState :=
  { activeStreams := [], streamBuffers := [], viewers := [] }

/-- `broadcastStreamUpdate` (lines 187-208): snapshot `activeStreams`
into the `streams` list and fan it out. -/
def streamListOf (as : List (String × StreamEntry)) : List StreamInfo :=
  as.map (fun p => { clientId := p.1, hasScreen := p.2.screen, hasWebcam := p.2.webcam })

def broadcastStreamUpdate (s : ServerState) : List (Nat × Msg) :=
  broadcastLoop s.viewers (Msg.streams (streamListOf s.activeStreams))

/-- `broadcastFrame` (lines 167-185). -/
def broadcastFrame (clientId streamType : String) (frameData : List Nat)
    (viewers : List Viewer) : List (Nat × Msg) :=
  broadcastLoop viewers (Msg.frame clientId streamType (base64Str frameData))

/-- `registerStream` (lines 93-101): create the `activeStreams` entry if
absent with both kinds false, set the given kind true, install a fresh
decode state under `bufferKey`, then broadcast the updated stream
list.  Returns the new state and the broadcast deliveries. -/
def registerStream (s : ServerState) (clientId : String) (k : StreamKind) :
    ServerState × List (Nat × Msg) :=
  let as0 :=
    match mapGet s.activeStreams clientId with
    | none => mapSet s.activeStreams clientId { screen := false, webcam := false }
    | some _ => s.activeStreams
  let entry := (mapGet as0 clientId).getD { screen := false, webcam := false }
  let as1 := mapSet as0 clientId (setKind entry k true)
  let s' := { s with
    activeStreams := as1,
    streamBuffers := mapSet s.streamBuffers (bufferKey clientId (kindStr k)) initState }
  (s', broadcastStreamUpdate s')

/-- `unregisterStream` (lines 128-139): delete the decode buffer, set
the kind false on the entry if present, delete the entry when both
kinds are now false, then broadcast the updated stream list. -/
def unregisterStream (s : ServerState) (clientId : String) (k : StreamKind) :
    ServerState × List (Nat × Msg) :=
  let sb := mapDelete s.streamBuffers (bufferKey clientId (kindStr k))
  let as1 :=
    match mapGet s.activeStreams clientId with
    | none => s.activeStreams
    | some e =>
      let e' := setKind e k false
      let m1 := mapSet s.activeStreams clientId e'
      if !e'.screen && !e'.webcam then mapDelete m1 clientId else m1
  let s' := { s with activeStreams := as1, streamBuffers := sb }
  (s', broadcastStreamUpdate s')

/-- `feedChunk` at server level (lines 103-126): look up the decode
state under `bufferKey`; if absent, return without touching anything
(line 106).  Otherwise run the parse loop and broadcast each emitted
frame in order.  `broadcastFrame` neither reads nor writes
`streamBuffers`, so the interleaved parse-and-broadcast of the source
is factored as parse first, then broadcast per frame. -/
def serverFeedChunk (s : ServerState) (clientId : String) (k : StreamKind)
    (chunk : List Nat) : ServerState × List (Nat × Msg) :=
  let key := bufferKey clientId (kindStr k)
  match mapGet s.streamBuffers key with
  | none => (s, [])
  | some st =>
    let out := feedChunk st chunk
    ({ s with streamBuffers := mapSet s.streamBuffers key out.2 },
     out.1.foldr (fun f acc => broadcastFrame clientId (kindStr k) f s.viewers ++ acc) [])

/-! ### Registry operation sequences (for the registry invariant) -/

inductive RegOp where
  | register (clientId : String) (k : StreamKind)
  | unregister (clientId : String) (k : StreamKind)

def applyOp (s : ServerState) : RegOp → ServerState
  | RegOp.register c k => (registerStream s c k).1
  | RegOp.unregister c k => (unregisterStream s c k).1

def applyOps (s : ServerState) (ops : List RegOp) : ServerState :=
  ops.foldl applyOp s

/-- The hypothesis "the other stream kind is inactive for this client",
read off the registry. -/
def otherKindInactive (s : ServerState) (c : String) (k : StreamKind) : Bool :=
  match mapGet s.activeStreams c with
  | none => true
  | some e => !(otherKind e k)

/-! ### Producer connection events (lines 59-64 / 77-82) -/

/-- Events a producer request stream can deliver.  The handler installs
callbacks for `'data'`, `'end'` and `'error'` only; nothing listens for
an abrupt `'close'`. -/
inductive ConnEvent where
  | dataEv (chunk : List Nat)
  | endEv
  | errorEv
  | closeEv
deriving DecidableEq

def isEndOrError : ConnEvent → Bool
  | ConnEvent.endEv => true
  | ConnEvent.errorEv => true
  | _ => false

/-- Deliver a sequence of events to the handlers installed by the
`/stream/{kind}` endpoint: `'data'` runs `feedChunk`, `'end'` and
`'error'` each run `unregisterStream`, `'close'` runs nothing.
Returns the final server state and the number of `unregisterStream`
invocations. -/
def runEvents : ServerState → String → StreamKind → List ConnEvent → ServerState × Nat
  | s, _, _, [] => (s, 0)
  | s, c, k, ConnEvent.dataEv chunk :: rest =>
    runEvents (serverFeedChunk s c k chunk).1 c k rest
  | s, c, k, ConnEvent.endEv :: rest =>
    let r := runEvents (unregisterStream s c k).1 c k rest
    (r.1, r.2 + 1)
  | s, c, k, ConnEvent.errorEv :: rest =>
    let r := runEvents (unregisterStream s c k).1 c k rest
    (r.1, r.2 + 1)
  | s, c, k, ConnEvent.closeEv :: rest => runEvents s c k rest

/-! ### Observable trace of one producer request (lines 50-66 / 68-84) -/

inductive HttpResponse where
  | badRequest (body : String)
  | okEmpty
deriving DecidableEq

/-- The synchronous part of the `POST /stream/{kind}` handler: a missing
or empty `clientId` (JS falsiness of `req.query.clientId`) is rejected
with `res.status(400).send('Missing clientId')` before any
registration; otherwise the client is registered and
`res.status(200).end()` runs at the end of the handler body.  Returns
the new server state, the response, and the presence-broadcast
deliveries. -/
def streamPost (s : ServerState) (k : StreamKind) (clientId : Option String) :
    ServerState × HttpResponse × List (Nat × Msg) :=
  match clientId with
  | none => (s, HttpResponse.badRequest "Missing clientId", [])
  | some cid =>
    if cid = "" then (s, HttpResponse.badRequest "Missing clientId", [])
    else
      let out := registerStream s cid k
      (out.1, HttpResponse.okEmpty, out.2)

/-- Observable actions of one producer connection, in the order they
happen. -/
inductive Action where
  | register
  | respond (r : HttpResponse)
  | feedData (chunk : List Nat)
  | unregister
deriving DecidableEq

/-- What the installed event handlers do for one delivered event. -/
def eventActions : ConnEvent → List Action
  | ConnEvent.dataEv c => [Action.feedData c]
  | ConnEvent.endEv => [Action.unregister]
  | ConnEvent.errorEv => [Action.unregister]
  | ConnEvent.closeEv => []

def eventsActions : List ConnEvent → List Action
  | [] => []
  | e :: rest => eventActions e ++ eventsActions rest

/-- The ordered observable trace of one `POST /stream/{kind}` request:
the synchronous handler body runs to completion first (register, then
`res.status(200).end()` on line 65/83 — the request-stream events can
only be dispatched after the handler returns, the event loop being
single-threaded), then the body-stream events fire. -/
def handlerTrace (clientId : Option String) (events : List ConnEvent) : List Action :=
  match clientId with
  | none => [Action.respond (HttpResponse.badRequest "Missing clientId")]
  | some cid =>
    if cid = "" then [Action.respond (HttpResponse.badRequest "Missing clientId")]
    else
      Action.register :: Action.respond HttpResponse.okEmpty :: eventsActions events

/-- A concrete server state with an active screen stream for client
`"a"` and two open viewers, the first of which has a broken channel
(its `send` throws). -/
def twoViewerState : ServerState :=
  { activeStreams := [("a", { screen := true, webcam := false })],
    streamBuffers := [("a:screen", initState)],
    viewers := [{ vid := 1, readyState := WS_OPEN, sendFails := true },
                { vid := 2, readyState := WS_OPEN, sendFails := false }] }

/-- The registry invariant the spec states for `activeStreams`:
unique keys, and every present entry has at least one active kind. -/
def RegistryInv (s : ServerState) : Prop :=
  (s.activeStreams.map Prod.fst).Nodup ∧
  ∀ c e, mapGet s.activeStreams c = some e → e.screen = true ∨ e.webcam = true

/-! ## Lemmas about the association-list map operations -/

theorem mapGet_mapSet_self {α : Type} (m : List (String × α)) (key : String) (v : α) :
    mapGet (mapSet m key v) key = some v := by
  induction m with
  | nil => simp [mapSet, mapGet]
  | cons p rest ih =>
    rcases p with ⟨k, w⟩
    by_cases h : k = key <;> simp [mapSet, mapGet, h, ih]

theorem mapGet_mapSet_ne {α : Type} (m : List (String × α)) (key qkey : String) (v : α)
    (h : qkey ≠ key) : mapGet (mapSet m key v) qkey = mapGet m qkey := by
  induction m with
  | nil => simp [mapSet, mapGet, Ne.symm h]
  | cons p rest ih =>
    rcases p with ⟨k, w⟩
    by_cases hk : k = key
    · subst hk
      simp [mapSet, mapGet, Ne.symm h]
    · simp [mapSet, mapGet, hk, ih]

theorem mapDelete_sublist {α : Type} (m : List (String × α)) (key : String) :
    (mapDelete m key).Sublist m := by
  induction m with
  | nil => simp [mapDelete]
  | cons p rest ih =>
    rcases p with ⟨k, w⟩
    by_cases h : k = key
    · simp only [mapDelete, h, if_true]
      exact List.sublist_cons_self (key, w) rest
    · simpa [mapDelete, h] using ih.cons₂ (k, w)

theorem mapGet_eq_none_of_not_mem {α : Type} (m : List (String × α)) (key : String)
    (h : key ∉ m.map Prod.fst) : mapGet m key = none := by
  induction m with
  | nil => simp [mapGet]
  | cons p rest ih =>
    rcases p with ⟨k, w⟩
    simp only [List.map_cons, List.mem_cons, not_or] at h
    have hk : ¬k = key := fun hk => h.1 hk.symm
    simp [mapGet, hk, ih h.2]

theorem mapGet_mapDelete_self {α : Type} (m : List (String × α)) (key : String)
    (h : (m.map Prod.fst).Nodup) : mapGet (mapDelete m key) key = none := by
  induction m with
  | nil => simp [mapDelete, mapGet]
  | cons p rest ih =>
    rcases p with ⟨k, w⟩
    simp only [List.map_cons, List.nodup_cons] at h
    by_cases hk : k = key
    · subst hk
      simpa [mapDelete] using mapGet_eq_none_of_not_mem rest k h.1
    · simp [mapDelete, mapGet, hk, ih h.2]

theorem mapGet_mapDelete_ne {α : Type} (m : List (String × α)) (key qkey : String)
    (h : qkey ≠ key) : mapGet (mapDelete m key) qkey = mapGet m qkey := by
  induction m with
  | nil => simp [mapDelete]
  | cons p rest ih =>
    rcases p with ⟨k, w⟩
    by_cases hk : k = key
    · subst hk
      simp [mapDelete, mapGet, Ne.symm h]
    · simp [mapDelete, mapGet, hk, ih]

theorem mem_keys_mapSet {α : Type} (m : List (String × α)) (key : String) (v : α)
    (x : String) (h : x ∈ (mapSet m key v).map Prod.fst) :
    x ∈ m.map Prod.fst ∨ x = key := by
  induction m with
  | nil => simpa [mapSet] using h
  | cons p rest ih =>
    rcases p with ⟨k, w⟩
    by_cases hk : k = key
    · subst hk
      rw [show mapSet ((k, w) :: rest) k v = (k, v) :: rest from by simp [mapSet]] at h
      rw [List.map_cons, List.mem_cons] at h
      rcases h with h | h
      · exact Or.inr h
      · exact Or.inl (by rw [List.map_cons, List.mem_cons]; exact Or.inr h)
    · rw [show mapSet ((k, w) :: rest) key v = (k, w) :: mapSet rest key v from by
        simp [mapSet, hk]] at h
      rw [List.map_cons, List.mem_cons] at h
      rcases h with h | h
      · exact Or.inl (by rw [List.map_cons, List.mem_cons]; exact Or.inl h)
      · rcases ih h with h' | h'
        · exact Or.inl (by rw [List.map_cons, List.mem_cons]; exact Or.inr h')
        · exact Or.inr h'

theorem keysNodup_mapSet {α : Type} (m : List (String × α)) (key : String) (v : α)
    (h : (m.map Prod.fst).Nodup) : ((mapSet m key v).map Prod.fst).Nodup := by
  induction m with
  | nil => simp [mapSet]
  | cons p rest ih =>
    rcases p with ⟨k, w⟩
    simp only [List.map_cons, List.nodup_cons] at h
    by_cases hk : k = key
    · subst hk
      simpa [mapSet, List.nodup_cons] using h
    · simp only [mapSet, hk, if_false, List.map_cons, List.nodup_cons]
      refine ⟨fun hmem => ?_, ih h.2⟩
      rcases mem_keys_mapSet rest key v k hmem with h' | h'
      · exact h.1 h'
      · exact hk h'

theorem keysNodup_mapDelete {α : Type} (m : List (String × α)) (key : String)
    (h : (m.map Prod.fst).Nodup) : ((mapDelete m key).map Prod.fst).Nodup :=
  h.sublist ((mapDelete_sublist m key).map Prod.fst)

/-! ## The registry invariant is preserved by register/unregister -/

theorem setKind_true_active (e : StreamEntry) (k : StreamKind) :
    (setKind e k true).screen = true ∨ (setKind e k true).webcam = true := by
  cases k <;> simp [setKind]

theorem setKind_roundtrip_inactive (e : StreamEntry) (k : StreamKind)
    (h : otherKind e k = false) :
    (setKind (setKind e k true) k false).screen = false ∧
    (setKind (setKind e k true) k false).webcam = false := by
  cases k <;> simp [setKind, otherKind] at h ⊢ <;> exact h

theorem registryInv_init : RegistryInv initServer := by
  refine ⟨by simp [initServer], ?_⟩
  intro c e hget
  simp [initServer, mapGet] at hget

theorem registryInv_register (s : ServerState) (c : String) (k : StreamKind)
    (h : RegistryInv s) : RegistryInv (registerStream s c k).1 := by
  rcases h with ⟨hnd, hact⟩
  rcases hma : mapGet s.activeStreams c with _ | e0
  · have hbase : ((registerStream s c k).1).activeStreams =
        mapSet (mapSet s.activeStreams c { screen := false, webcam := false }) c
          (setKind { screen := false, webcam := false } k true) := by
      simp [registerStream, hma, mapGet_mapSet_self]
    refine ⟨?_, ?_⟩
    · rw [hbase]
      exact keysNodup_mapSet _ _ _ (keysNodup_mapSet _ _ _ hnd)
    · intro c' e' hget
      rw [hbase] at hget
      by_cases hc : c' = c
      · subst hc
        rw [mapGet_mapSet_self] at hget
        cases hget
        exact setKind_true_active _ k
      · rw [mapGet_mapSet_ne _ _ _ _ hc, mapGet_mapSet_ne _ _ _ _ hc] at hget
        exact hact c' e' hget
  · have hbase : ((registerStream s c k).1).activeStreams =
        mapSet s.activeStreams c (setKind e0 k true) := by
      simp [registerStream, hma]
    refine ⟨?_, ?_⟩
    · rw [hbase]
      exact keysNodup_mapSet _ _ _ hnd
    · intro c' e' hget
      rw [hbase] at hget
      by_cases hc : c' = c
      · subst hc
        rw [mapGet_mapSet_self] at hget
        cases hget
        exact setKind_true_active _ k
      · rw [mapGet_mapSet_ne _ _ _ _ hc] at hget
        exact hact c' e' hget

theorem registryInv_unregister (s : ServerState) (c : String) (k : StreamKind)
    (h : RegistryInv s) : RegistryInv (unregisterStream s c k).1 := by
  rcases h with ⟨hnd, hact⟩
  rcases hma : mapGet s.activeStreams c with _ | e0
  · have hbase : ((unregisterStream s c k).1).activeStreams = s.activeStreams := by
      simp [unregisterStream, hma]
    refine ⟨by rw [hbase]; exact hnd, ?_⟩
    intro c' e' hget
    rw [hbase] at hget
    exact hact c' e' hget
  · by_cases hcond : (!(setKind e0 k false).screen && !(setKind e0 k false).webcam) = true
    · have hbase : ((unregisterStream s c k).1).activeStreams =
          mapDelete (mapSet s.activeStreams c (setKind e0 k false)) c := by
        simp [unregisterStream, hma, hcond]
      refine ⟨?_, ?_⟩
      · rw [hbase]
        exact keysNodup_mapDelete _ _ (keysNodup_mapSet _ _ _ hnd)
      · intro c' e' hget
        rw [hbase] at hget
        by_cases hc : c' = c
        · subst hc
          rw [mapGet_mapDelete_self _ _ (keysNodup_mapSet _ _ _ hnd)] at hget
          cases hget
        · rw [mapGet_mapDelete_ne _ _ _ hc, mapGet_mapSet_ne _ _ _ _ hc] at hget
          exact hact c' e' hget
    · have hbase : ((unregisterStream s c k).1).activeStreams =
          mapSet s.activeStreams c (setKind e0 k false) := by
        simp [unregisterStream, hma, hcond]
      refine ⟨?_, ?_⟩
      · rw [hbase]
        exact keysNodup_mapSet _ _ _ hnd
      · intro c' e' hget
        rw [hbase] at hget
        by_cases hc : c' = c
        · subst hc
          rw [mapGet_mapSet_self] at hget
          cases hget
          cases hs : (setKind e0 k false).screen <;>
            cases hw : (setKind e0 k false).webcam <;> simp_all
        · rw [mapGet_mapSet_ne _ _ _ _ hc] at hget
          exact hact c' e' hget

theorem registryInv_applyOps (ops : List RegOp) (s : ServerState) (h : RegistryInv s) :
    RegistryInv (applyOps s ops) := by
  induction ops generalizing s with
  | nil => exact h
  | cons op ops ih =>
    rcases op with ⟨c, k⟩ | ⟨c, k⟩
    · exact ih _ (registryInv_register s c k h)
    · exact ih _ (registryInv_unregister s c k h)

/-! ## Fan-out loop lemmas -/

theorem broadcastLoopE_ok (viewers : List Viewer) (m : Msg) :
    broadcastLoopE viewers m = Except.ok (broadcastLoop viewers m) := by
  induction viewers with
  | nil => rfl
  | cons v rest ih =>
    by_cases h : v.readyState = WS_OPEN
    · cases hf : v.sendFails <;>
        simp [broadcastLoopE, broadcastLoop, sendToViewer, h, hf, ih]
    · simp [broadcastLoopE, broadcastLoop, h, ih]

theorem broadcastLoop_delivers_to_open_ok (viewers : List Viewer) (m : Msg) :
    broadcastLoop viewers m =
      (viewers.filter fun v => v.readyState == WS_OPEN && !v.sendFails).map
        (fun v => (v.vid, m)) := by
  induction viewers with
  | nil => rfl
  | cons v rest ih =>
    by_cases h : v.readyState = WS_OPEN
    · cases hf : v.sendFails <;>
        simp [broadcastLoop, sendToViewer, h, hf, ih, List.filter_cons]
    · have hb : (v.readyState == WS_OPEN) = false := by simp [h]
      simp [broadcastLoop, h, ih, List.filter_cons, hb]

theorem serverFeedChunk_viewers (s : ServerState) (c : String) (k : StreamKind)
    (chunk : List Nat) : ((serverFeedChunk s c k chunk).1).viewers = s.viewers := by
  rcases hget : mapGet s.streamBuffers (bufferKey c (kindStr k)) with _ | st <;>
    simp [serverFeedChunk, hget]

/-! ## Decoder lemmas -/

theorem readUInt32BE_be32 (n : Nat) (rest : List Nat) (h : n < 4294967296) :
    readUInt32BE (be32 n ++ rest) = n := by
  simp [readUInt32BE, be32]
  omega

theorem decodeLoopF_oversize (fuel : Nat) (st : DecodeState) (h4 : st.need = 4)
    (hlen : 4 ≤ st.buf.length) (hover : MAX_FRAME_BYTES < readUInt32BE st.buf) :
    decodeLoopF (fuel + 1) st =
      ([], { buf := st.buf.drop 4, need := 4, payloadLen := 0 }) := by
  simp [decodeLoopF, h4, hlen, hover]

/-! ## Claims -/

/-- Claim C1 (code bug).  The spec's chunk-invariance property fails on
the code: the decoder uses `need === 4` both for "awaiting a length
prefix" and for "awaiting a 4-byte payload" (the `payloadLen` field
that could disambiguate is never read).  Feeding the 8 encoded bytes of
the single frame `[0xAA, 0xBB, 0xCC, 0xDD]` (declared length 4) in one
chunk emits that frame, but splitting the same bytes right after the
length prefix emits nothing: the second chunk's payload bytes are
re-read as a length prefix `0xAABBCCDD`, which is over the 10 MiB limit
and is dropped. -/
theorem chunk_split_changes_emitted_frames :
    (feedChunk initState [0, 0, 0, 4, 170, 187, 204, 221]).1 = [[170, 187, 204, 221]] ∧
    (feedChunks initState [[0, 0, 0, 4], [170, 187, 204, 221]]).1 = [] := by
  decide

/-- Claim C2 (confirmed).  From a state awaiting a length prefix with an
empty buffer (any `payloadLen`), feeding a 4-byte big-endian prefix
declaring `L > 10*1024*1024` emits nothing, consumes exactly the 4
prefix bytes, and resets to the awaiting-length-prefix sub-state; the
decoder thereafter behaves exactly like a fresh decoder fed the bytes
after the prefix, so the byte immediately after the prefix is parsed as
the start of a fresh length prefix.  No error is raised (`feedChunk` is
a total function). -/
theorem oversized_length_drops_frame_and_resets (pl L : Nat) (rest c : List Nat)
    (hover : MAX_FRAME_BYTES < L) (h32 : L < 4294967296) :
    feedChunk { buf := [], need := 4, payloadLen := pl } (be32 L ++ rest) =
      ([], { buf := rest, need := 4, payloadLen := 0 }) ∧
    feedChunk ({ buf := rest, need := 4, payloadLen := 0 } : DecodeState) c =
      feedChunk initState (rest ++ c) := by
  constructor
  · have hst : feedChunk { buf := [], need := 4, payloadLen := pl } (be32 L ++ rest) =
        decodeLoopF ((be32 L ++ rest).length + 1)
          { buf := be32 L ++ rest, need := 4, payloadLen := pl } := by
      simp [feedChunk]
    rw [hst, decodeLoopF_oversize _ _ rfl (by simp [be32])
      (by rw [readUInt32BE_be32 L rest h32]; exact hover)]
    rfl
  · simp [feedChunk, initState]

/-- Witness for C2 at `L = 10*1024*1024 + 1`. -/
theorem oversized_length_drops_frame_and_resets_witness :
    feedChunk { buf := [], need := 4, payloadLen := 0 } (be32 10485761 ++ [9]) =
      ([], { buf := [9], need := 4, payloadLen := 0 }) :=
  (oversized_length_drops_frame_and_resets 0 10485761 [9] [] (by decide) (by decide)).1

/-- Claim C3 (code bug).  Feeding a length prefix for `L = 0` does NOT
emit an empty payload: the loop's emit branch requires `need > 0`, so
with `need = 0` neither branch can ever fire again.  The decoder emits
nothing and is permanently wedged — every later chunk is buffered and
never parsed — rather than returning to the awaiting-length-prefix
state. -/
theorem zero_length_emits_nothing_and_wedges :
    feedChunk initState [0, 0, 0, 0] = ([], { buf := [], need := 0, payloadLen := 0 }) ∧
    ∀ c : List Nat, feedChunk { buf := [], need := 0, payloadLen := 0 } c =
      ([], { buf := c, need := 0, payloadLen := 0 }) := by
  refine ⟨by decide, ?_⟩
  intro c
  simp [feedChunk, decodeLoopF]

/-- Claim C4 (confirmed).  Over every sequence of
`registerStream`/`unregisterStream` operations from the initial state:
an `activeStreams` entry exists for a client iff an entry with at least
one active kind exists for it; and a `registerStream` immediately
followed by the matching `unregisterStream`, when the other kind is
inactive, removes the client's entry entirely. -/
theorem registry_entry_iff_kind_active :
    (∀ (ops : List RegOp) (c : String),
      (∃ e, mapGet (applyOps initServer ops).activeStreams c = some e) ↔
      (∃ e, mapGet (applyOps initServer ops).activeStreams c = some e ∧
        (e.screen = true ∨ e.webcam = true))) ∧
    (∀ (ops : List RegOp) (c : String) (k : StreamKind),
      otherKindInactive (applyOps initServer ops) c k = true →
      mapGet (applyOps initServer
        (ops ++ [RegOp.register c k, RegOp.unregister c k])).activeStreams c = none) := by
  constructor
  · intro ops c
    constructor
    · rintro ⟨e, he⟩
      exact ⟨e, he, (registryInv_applyOps ops initServer registryInv_init).2 c e he⟩
    · rintro ⟨e, he, _⟩
      exact ⟨e, he⟩
  · intro ops c k hother
    have happ : applyOps initServer (ops ++ [RegOp.register c k, RegOp.unregister c k]) =
        (unregisterStream (registerStream (applyOps initServer ops) c k).1 c k).1 := by
      simp [applyOps, List.foldl_append, applyOp]
    rw [happ]
    set s := applyOps initServer ops with hs
    have hinv : RegistryInv s := registryInv_applyOps ops initServer registryInv_init
    have hnd1 : (((registerStream s c k).1).activeStreams.map Prod.fst).Nodup :=
      (registryInv_register s c k hinv).1
    obtain ⟨entry, hlook1, hother0⟩ :
        ∃ entry, mapGet ((registerStream s c k).1).activeStreams c =
            some (setKind entry k true) ∧ otherKind entry k = false := by
      rcases hma : mapGet s.activeStreams c with _ | e0
      · refine ⟨{ screen := false, webcam := false }, ?_, by cases k <;> simp [otherKind]⟩
        simp [registerStream, hma, mapGet_mapSet_self]
      · refine ⟨e0, ?_, ?_⟩
        · simp [registerStream, hma, mapGet_mapSet_self]
        · have h2 := hother
          simp [otherKindInactive, hma] at h2
          exact h2
    have hrt := setKind_roundtrip_inactive entry k hother0
    have hcond : (!(setKind (setKind entry k true) k false).screen &&
        !(setKind (setKind entry k true) k false).webcam) = true := by
      rw [hrt.1, hrt.2]
      rfl
    have hfin : ((unregisterStream (registerStream s c k).1 c k).1).activeStreams =
        mapDelete (mapSet ((registerStream s c k).1).activeStreams c
          (setKind (setKind entry k true) k false)) c := by
      simp [unregisterStream, hlook1, hcond]
    rw [hfin]
    exact mapGet_mapDelete_self _ _ (keysNodup_mapSet _ _ _ hnd1)

/-- Witness for C4: register then unregister of a fresh client removes
its entry. -/
theorem registry_entry_iff_kind_active_witness :
    mapGet (applyOps initServer
      ([] ++ [RegOp.register "a" StreamKind.screen,
              RegOp.unregister "a" StreamKind.screen])).activeStreams "a" = none :=
  registry_entry_iff_kind_active.2 [] "a" StreamKind.screen (by decide)

/-- Claim C5 (corrected).  Deactivation runs once per `'end'` or
`'error'` event the request stream delivers — the handler installs
`unregisterStream` on both events with no exactly-once guard and
installs nothing for `'close'` — so it runs exactly once only when
exactly one of those two events fires. -/
theorem unregister_runs_once_per_end_or_error (s : ServerState) (c : String)
    (k : StreamKind) (events : List ConnEvent) :
    (runEvents s c k events).2 = (events.filter isEndOrError).length := by
  induction events generalizing s with
  | nil => simp [runEvents]
  | cons e rest ih => cases e <;> simp [runEvents, isEndOrError, ih]

/-- Counterexample to C5 as stated: when an `'error'` event is followed
by an `'end'` event on the same connection, deactivation runs twice,
and on an abrupt `'close'` that delivers neither event it runs zero
times — not "exactly once regardless of which terminal event fires". -/
theorem unregister_twice_on_error_then_end :
    (runEvents (registerStream initServer "a" StreamKind.screen).1 "a" StreamKind.screen
      [ConnEvent.errorEv, ConnEvent.endEv]).2 = 2 ∧
    (runEvents (registerStream initServer "a" StreamKind.screen).1 "a" StreamKind.screen
      [ConnEvent.closeEv]).2 = 0 := by
  decide

/-- Claim C6 (corrected).  A failing `send` to one viewer is caught
inside the fan-out loop (the loop never surfaces an error to the
publisher) and every other open, working viewer still receives the
message; but the failing viewer is NOT removed from the fan-out set by
the publish — `viewingClients` is only mutated by the socket's own
`'close'` handler. -/
theorem viewer_delivery_failure_isolated (viewers : List Viewer) (m : Msg)
    (s : ServerState) (c : String) (k : StreamKind) (chunk : List Nat) :
    broadcastLoopE viewers m = Except.ok (broadcastLoop viewers m) ∧
    broadcastLoop viewers m =
      (viewers.filter fun v => v.readyState == WS_OPEN && !v.sendFails).map
        (fun v => (v.vid, m)) ∧
    ((serverFeedChunk s c k chunk).1).viewers = s.viewers :=
  ⟨broadcastLoopE_ok viewers m,
   ⟨broadcastLoop_delivers_to_open_ok viewers m, serverFeedChunk_viewers s c k chunk⟩⟩

/-- Counterexample to C6 as stated: broadcasting one frame to two open
viewers, the first of which has a broken channel, delivers to the
second viewer only and leaves BOTH viewers in the fan-out set — the
failing viewer is not removed. -/
theorem failing_viewer_not_removed_from_set :
    ((serverFeedChunk twoViewerState "a" StreamKind.screen [0, 0, 0, 1, 65]).1).viewers =
      twoViewerState.viewers ∧
    (serverFeedChunk twoViewerState "a" StreamKind.screen [0, 0, 0, 1, 65]).2 =
      [(2, Msg.frame "a" "screen" "QQ==")] := by
  decide

/-- Claim C7 (confirmed).  A `POST /stream/{kind}` with a missing (or
empty, which is equally falsy in JS) `clientId` is answered with
status 400 and the plain-text body `Missing clientId`, and the whole
server state — `activeStreams`, `streamBuffers` and the viewer set —
is returned unchanged with no broadcast delivered. -/
theorem missing_clientId_rejected_without_mutation (s : ServerState) (k : StreamKind)
    (cid : Option String) (h : cid = none ∨ cid = some "") :
    streamPost s k cid = (s, HttpResponse.badRequest "Missing clientId", []) := by
  rcases h with h | h <;> subst h <;> simp [streamPost]

/-- Witness for C7 with an absent `clientId` parameter. -/
theorem missing_clientId_rejected_without_mutation_witness :
    streamPost initServer StreamKind.screen none =
      (initServer, HttpResponse.badRequest "Missing clientId", []) :=
  missing_clientId_rejected_without_mutation initServer StreamKind.screen none (Or.inl rfl)

/-- Claim C8 (corrected).  For a producer request with a non-empty
`clientId`, the 200 empty response is sent exactly once, but it is sent
synchronously at the end of the handler body — after registration and
handler installation and BEFORE any request-body event (in particular
before the stream ends): the trace is always `register`, then
`respond 200`, then the body events' actions, which never contain
another 200 response. -/
theorem ok_response_sent_once_before_body (cid : String) (events : List ConnEvent)
    (h : cid ≠ "") :
    handlerTrace (some cid) events =
      Action.register :: Action.respond HttpResponse.okEmpty :: eventsActions events ∧
    Action.respond HttpResponse.okEmpty ∉ eventsActions events := by
  refine ⟨by simp [handlerTrace, h], ?_⟩
  induction events with
  | nil => simp [eventsActions]
  | cons e rest ih => cases e <;> simp [eventsActions, eventActions, ih]

/-- Witness for C8's amended statement at a concrete request. -/
theorem ok_response_sent_once_before_body_witness :
    handlerTrace (some "a") [ConnEvent.endEv] =
      Action.register :: Action.respond HttpResponse.okEmpty ::
        eventsActions [ConnEvent.endEv] ∧
    Action.respond HttpResponse.okEmpty ∉ eventsActions [ConnEvent.endEv] :=
  ok_response_sent_once_before_body "a" [ConnEvent.endEv] (by decide)

/-- Counterexample to C8 as stated: in the trace of a request whose
stream ends normally, the 200 response does not occur after the
end-of-stream processing — it occurs right after registration, before
the stream has ended. -/
theorem ok_response_not_sent_at_stream_end :
    ¬ (∀ pre post : List Action,
        handlerTrace (some "a") [ConnEvent.endEv] =
          pre ++ Action.respond HttpResponse.okEmpty :: post →
        Action.unregister ∈ pre) := by
  intro h
  have h2 := h [Action.register] [Action.unregister] (by decide)
  simp at h2

/-- Claim C9 (corrected).  Decode states are keyed by
`bufferKey = clientId + ":" + streamType`, not by connection: feeding
bytes for one key never reads or modifies the decode state stored under
any other key, but two simultaneous connections with the same
`clientId` and the same kind share a single decode state (see the
counterexample). -/
theorem decode_state_isolated_across_buffer_keys (s : ServerState) (c1 c2 : String)
    (k1 k2 : StreamKind) (chunk : List Nat)
    (h : bufferKey c1 (kindStr k1) ≠ bufferKey c2 (kindStr k2)) :
    mapGet ((serverFeedChunk s c1 k1 chunk).1).streamBuffers (bufferKey c2 (kindStr k2)) =
      mapGet s.streamBuffers (bufferKey c2 (kindStr k2)) := by
  rcases hget : mapGet s.streamBuffers (bufferKey c1 (kindStr k1)) with _ | st
  · simp [serverFeedChunk, hget]
  · simp [serverFeedChunk, hget, mapGet_mapSet_ne _ _ _ _ (Ne.symm h)]

/-- Witness for C9's amended statement: feeding client `"a"` leaves
client `"b"`'s decode state untouched. -/
theorem decode_state_isolated_across_buffer_keys_witness :
    mapGet ((serverFeedChunk initServer "a" StreamKind.screen []).1).streamBuffers
        (bufferKey "b" (kindStr StreamKind.screen)) =
      mapGet initServer.streamBuffers (bufferKey "b" (kindStr StreamKind.screen)) :=
  decode_state_isolated_across_buffer_keys initServer "a" "b"
    StreamKind.screen StreamKind.screen [] (by decide)

/-- Counterexample to C9 as stated: two connections with the same
clientId and kind share one decode state.  Connection A registers and
feeds 2 partial prefix bytes; connection B's registration resets the
shared state (destroying A's buffered bytes), and — from the state
where A's 2 bytes are buffered — B's feed of 3 further bytes is parsed
together with A's bytes (the shared buffer is drained to `[]`, a frame
having been assembled from bytes of both connections). -/
theorem same_key_connections_share_decode_state :
    (mapGet ((serverFeedChunk (registerStream initServer "a" StreamKind.screen).1
        "a" StreamKind.screen [0, 0]).1).streamBuffers
        (bufferKey "a" (kindStr StreamKind.screen)) =
      some { buf := [0, 0], need := 4, payloadLen := 0 }) ∧
    (mapGet ((registerStream ((serverFeedChunk
        (registerStream initServer "a" StreamKind.screen).1
        "a" StreamKind.screen [0, 0]).1) "a" StreamKind.screen).1).streamBuffers
        (bufferKey "a" (kindStr StreamKind.screen)) = some initState) ∧
    (mapGet ((serverFeedChunk ((serverFeedChunk
        (registerStream initServer "a" StreamKind.screen).1
        "a" StreamKind.screen [0, 0]).1) "a" StreamKind.screen [0, 1, 65]).1).streamBuffers
        (bufferKey "a" (kindStr StreamKind.screen)) =
      some { buf := [], need := 4, payloadLen := 0 }) := by
  decide

/-- Claim C10 (confirmed).  When no `streamBuffers` entry exists for the
`(clientId, streamType)` pair, `feedChunk` returns immediately: no
frame is delivered to any viewer and the entire server state —
`activeStreams`, `streamBuffers` and the viewer set — is unchanged. -/
theorem feed_without_buffer_entry_is_noop (s : ServerState) (c : String)
    (k : StreamKind) (chunk : List Nat)
    (h : mapGet s.streamBuffers (bufferKey c (kindStr k)) = none) :
    serverFeedChunk s c k chunk = (s, []) := by
  simp [serverFeedChunk, h]

/-- Witness for C10 on the initial (empty) server state. -/
theorem feed_without_buffer_entry_is_noop_witness :
    serverFeedChunk initServer "a" StreamKind.screen [1, 2, 3] = (initServer, []) :=
  feed_without_buffer_entry_is_noop initServer "a" StreamKind.screen [1, 2, 3] (by decide)

end Granolaa
